import Mathlib

/-!
Verification of the challenge evaluation pipeline of
`scripts/rrule-gauntlet/rrule_gauntlet.py` (temporal-cortex-core).

The Python source is shallowly embedded: pure functions become Lean
functions over `List Char` / `String`, fallible code returns
`Except String`, and the two external capabilities (the Truth Engine
`expand_rrule` and the LLM transport `run_llm`) are abstracted as oracle
parameters, exactly as the spec treats them (out-of-scope collaborators).
-/

namespace RRuleGauntlet

/-! ## Python string primitives -/

/-- Model of Python `str.strip()` default whitespace (the ASCII whitespace
characters; the Unicode spaces Python additionally strips never occur in the
inputs considered here). -/
def isPySpace (c : Char) : Bool :=
  c == ' ' || c == '\t' || c == '\n' || c == '\r' || c == '\x0b' || c == '\x0c'

/-- Model of Python `str.strip()` on a character list: drop leading and
trailing whitespace. -/
def pyStrip (cs : List Char) : List Char :=
  ((cs.dropWhile isPySpace).reverse.dropWhile isPySpace).reverse

/-- `pyStrip` lifted to `String`. -/
def pyStripS (s : String) : String :=
  String.mk (pyStrip s.toList)

/-! ## normalize_datetime (source lines 95-100) -/

/-- Python `s.endsWith "Z"`: the last character is `Z`. -/
def endsWithZ (cs : List Char) : Bool :=
  match cs.getLast? with
  | some c => c == 'Z'
  | none => false

/-- `normalize_datetime` on a character list: strip surrounding whitespace; if
the string ends with `'Z'`, replace that final character with `"+00:00"`
(Python `s[:-1] + "+00:00"`). -/
def normalizeChars (cs : List Char) : List Char :=
  let t := pyStrip cs
  if endsWithZ t then t.dropLast ++ ['+', '0', '0', ':', '0', '0'] else t

/-- Source: `normalize_datetime`. -/
def normalize_datetime (s : String) : String :=
  String.mk (normalizeChars s.toList)

/-! ## compare_answers (source lines 103-121) -/

/-- The dictionary returned by `compare_answers`: its six keys become fields. -/
structure Verdict where
  correct : Bool
  expected_count : Nat
  actual_count : Nat
  matching : Nat
  missing : List String
  extra : List String
  deriving Repr, DecidableEq

/-- Source: `compare_answers`.  Normalize both lists elementwise; `correct` is
order-sensitive list equality; `matching` counts positionally equal pairs over
`zip`; `missing`/`extra` are membership-based filters. -/
def compare_answers (expected actual : List String) : Verdict :=
  let norm_expected := expected.map normalize_datetime
  let norm_actual := actual.map normalize_datetime
  { correct := decide (norm_expected = norm_actual)
    expected_count := norm_expected.length
    actual_count := norm_actual.length
    matching := ((norm_expected.zip norm_actual).filter
      (fun p => decide (p.1 = p.2))).length
    missing := norm_expected.filter (fun e => decide (e ∉ norm_actual))
    extra := norm_actual.filter (fun a => decide (a ∉ norm_expected)) }

/-! ## Challenge records (entries of challenges.json) -/

/-- One challenge dictionary, as consumed by the script.  The required keys of
a challenges.json record become plain fields, the keys read with `.get`
(which yields `None` when absent) become `Option` fields. -/
structure Challenge where
  id : String
  name : String
  difficulty : String
  question : String
  rrule : String
  dtstart : String
  timezone : String
  duration_minutes : Nat
  untilBound : Option String := none
  exdates : Option (List String) := none
  max_count : Option Nat := none
  verification_mode : Option String := none
  correct_answer : Option (List String) := none
  deriving Repr

/-- The external Truth Engine capability, as consumed by `verify_challenge`:
it stands for the composite of `expand_rrule` applied to the challenge's rule
parameters, `json.loads` of the returned document and the extraction of the
`start` fields; an exception raised anywhere in that composite is the
oracle's error. -/
def TruthOracle : Type := Challenge → Except String (List String)

/-! ## verify_challenge (source lines 57-76) -/

/-- Source: `verify_challenge`.  For `verification_mode == "hardcoded"` return
the stored `correct_answer` (a missing key raises, as Python's
`challenge["correct_answer"]` would); otherwise delegate to the Truth
Engine. -/
def verify_challenge (truth : TruthOracle) (challenge : Challenge) :
    Except String (List String) :=
  if challenge.verification_mode = some "hardcoded" then
    match challenge.correct_answer with
    | some ans => Except.ok ans
    | none => Except.error "KeyError: correct_answer"
  else truth challenge

/-! ## verify_all (source lines 79-87) -/

/-- Python dict assignment `d[k] = v` on an insertion-ordered dictionary
modelled as an association list: overwrite in place if the key exists,
else append. -/
def dictInsert (m : List (String × α)) (k : String) (v : α) :
    List (String × α) :=
  if m.any (fun p => p.1 == k) then
    m.map (fun p => if p.1 == k then (k, v) else p)
  else m ++ [(k, v)]

/-- The value `verify_all` stores for one challenge: the resolved list, or the
string `"ERROR: {e}"` for a caught exception `e` (the `try`/`except` body of
the loop). -/
def verify_result (truth : TruthOracle) (ch : Challenge) :
    Except String (List String) :=
  match verify_challenge truth ch with
  | Except.ok ans => Except.ok ans
  | Except.error e => Except.error ("ERROR: " ++ e)

/-- Source: `verify_all`.  Fold over the batch, storing per-challenge results
keyed by challenge id; a failure of one challenge is caught and recorded,
never aborting the loop. -/
def verify_all (truth : TruthOracle) (challenges : List Challenge) :
    List (String × Except String (List String)) :=
  challenges.foldl (fun results ch => dictInsert results ch.id (verify_result truth ch)) []

/-! ## Prompt generation (source lines 128-163) -/

/-- Source: the module-level `SYSTEM_PROMPT` (after `dedent`). -/
def SYSTEM_PROMPT : String :=
  "You are a calendar computation expert. You will be given recurrence rule\n(RRULE) challenges per RFC 5545. For each challenge, compute the exact\nUTC start times of the specified recurring events.\n\nRules:\n- Output ONLY a JSON array of UTC datetime strings in RFC 3339 format.\n- Use the +00:00 suffix (not Z).\n- Account for DST transitions, leap years, and timezone offsets.\n- Double-check your work: count the occurrences carefully.\n\nExample output format:\n[\"2026-03-01T07:00:00+00:00\", \"2026-03-08T07:00:00+00:00\"]\n"

/-- Source: `build_prompt`.  The optional UNTIL and EXDATE lines appear only
when the field is present and truthy (Python `if challenge.get(...)`: a
missing key, `None`, an empty string or an empty list are all falsy). -/
def build_prompt (challenge : Challenge) : String :=
  let parts := [
    "Challenge: " ++ challenge.name,
    "",
    challenge.question,
    "",
    "Technical details:",
    "  RRULE: " ++ challenge.rrule,
    "  DTSTART: " ++ challenge.dtstart ++ " (local time in the specified timezone)",
    "  Timezone: " ++ challenge.timezone,
    "  Duration: " ++ toString challenge.duration_minutes ++ " minutes"]
  let parts := match challenge.untilBound with
    | some u => if u ≠ "" then
        parts ++ ["  UNTIL: " ++ u ++ " (local time in the specified timezone)"]
      else parts
    | none => parts
  let parts := match challenge.exdates with
    | some ex => if ¬ ex.isEmpty then
        parts ++ ["  EXDATE: " ++ String.intercalate ", " ex]
      else parts
    | none => parts
  let parts := parts ++ ["", "Return ONLY the JSON array of UTC start times."]
  String.intercalate "\n" parts

/-! ## JSON values and a model of Python json.loads

`parse_llm_response` ends in `json.loads(text)` and returns whatever value
that produces, so the embedding needs a JSON value type and a parser.  The
parser below models Python's `json.loads` on the JSON grammar (strict mode):
values are `null`, booleans, numbers, strings, arrays and objects; a numeric
literal is kept as its raw token (no claim here inspects a numeric value);
trailing non-whitespace after the value is an error ("Extra data"). -/

inductive JsonValue where
  | null : JsonValue
  | bool (b : Bool) : JsonValue
  | num (raw : String) : JsonValue
  | str (s : String) : JsonValue
  | arr (items : List JsonValue) : JsonValue
  | obj (members : List (String × JsonValue)) : JsonValue
  deriving Repr

/-- JSON insignificant whitespace (also what `json.loads` skips). -/
def isJsonWs (c : Char) : Bool :=
  c == ' ' || c == '\t' || c == '\n' || c == '\r'

/-- Skip insignificant whitespace. -/
def skipWs (cs : List Char) : List Char :=
  cs.dropWhile isJsonWs

/-- Hexadecimal digit test, for string `\u` escapes. -/
def isHexDigit (c : Char) : Bool :=
  c.isDigit || ('a' ≤ c && c ≤ 'f') || ('A' ≤ c && c ≤ 'F')

/-- The opening curly brace character. -/
def lbraceChar : Char := Char.ofNat 123

/-- The closing curly brace character. -/
def rbraceChar : Char := Char.ofNat 125

/-- Value of a hexadecimal digit. -/
def hexVal (c : Char) : Nat :=
  if c.isDigit then c.toNat - 48
  else if 'a' ≤ c then c.toNat - 87
  else c.toNat - 55

/-- Parse the body of a JSON string literal (the opening quote already
consumed): returns the decoded characters and the rest of the input.
Unescaped control characters are rejected, as in strict-mode `json.loads`. -/
def parseStringBody : Nat → List Char → Except String (List Char × List Char)
  | 0, _ => Except.error "Unterminated string"
  | Nat.succ fuel, cs =>
    match cs with
    | [] => Except.error "Unterminated string"
    | c :: rest =>
      if c = '"' then Except.ok ([], rest)
      else if c = '\\' then
        match rest with
        | [] => Except.error "Unterminated string"
        | e :: rest2 =>
          if e = 'u' then
            match rest2 with
            | h1 :: h2 :: h3 :: h4 :: rest3 =>
              if isHexDigit h1 && isHexDigit h2 && isHexDigit h3 && isHexDigit h4 then
                match parseStringBody fuel rest3 with
                | Except.ok (body, rem) =>
                  Except.ok (Char.ofNat
                    (((hexVal h1 * 16 + hexVal h2) * 16 + hexVal h3) * 16 + hexVal h4) :: body, rem)
                | Except.error msg => Except.error msg
              else Except.error "Invalid hex escape"
            | _ => Except.error "Invalid hex escape"
          else
            let dec : Except String Char :=
              if e = '"' then Except.ok '"'
              else if e = '\\' then Except.ok '\\'
              else if e = '/' then Except.ok '/'
              else if e = 'b' then Except.ok '\x08'
              else if e = 'f' then Except.ok '\x0c'
              else if e = 'n' then Except.ok '\n'
              else if e = 'r' then Except.ok '\r'
              else if e = 't' then Except.ok '\t'
              else Except.error "Invalid escape"
            match dec with
            | Except.ok d =>
              match parseStringBody fuel rest2 with
              | Except.ok (body, rem) => Except.ok (d :: body, rem)
              | Except.error msg => Except.error msg
            | Except.error msg => Except.error msg
      else if c.toNat < 32 then Except.error "Invalid control character"
      else
        match parseStringBody fuel rest with
        | Except.ok (body, rem) => Except.ok (c :: body, rem)
        | Except.error msg => Except.error msg

/-- Lex a JSON numeric literal (sign, integer part without leading zeros,
optional fraction, optional exponent); the raw token is kept. -/
def parseNumber (cs : List Char) : Except String (JsonValue × List Char) :=
  let (sgn, r1) := match cs with
    | c :: rest => if c = '-' then ((['-'] : List Char), rest) else (([] : List Char), cs)
    | [] => (([] : List Char), cs)
  match r1 with
  | [] => Except.error "Expecting value"
  | d :: rest =>
    if ¬ d.isDigit then Except.error "Expecting value"
    else
      let (ip, r2) :=
        if d = '0' then ([d], rest)
        else (d :: rest.takeWhile Char.isDigit, rest.dropWhile Char.isDigit)
      let fracResult : Except String (List Char × List Char) :=
        match r2 with
        | p :: frest =>
          if p = '.' then
            let fd := frest.takeWhile Char.isDigit
            if fd.isEmpty then Except.error "Expecting digit"
            else Except.ok (p :: fd, frest.dropWhile Char.isDigit)
          else Except.ok ([], r2)
        | [] => Except.ok ([], r2)
      match fracResult with
      | Except.error msg => Except.error msg
      | Except.ok (fp, r3) =>
        let expResult : Except String (List Char × List Char) :=
          match r3 with
          | x :: xrest =>
            if x = 'e' ∨ x = 'E' then
              let (xsgn, xrest2) := match xrest with
                | s :: srest => if s = '+' ∨ s = '-' then ([s], srest) else (([] : List Char), xrest)
                | [] => (([] : List Char), xrest)
              let xd := xrest2.takeWhile Char.isDigit
              if xd.isEmpty then Except.error "Expecting digit"
              else Except.ok (x :: (xsgn ++ xd), xrest2.dropWhile Char.isDigit)
            else Except.ok ([], r3)
          | [] => Except.ok ([], r3)
        match expResult with
        | Except.error msg => Except.error msg
        | Except.ok (xp, r4) =>
          Except.ok (JsonValue.num (String.mk (sgn ++ ip ++ fp ++ xp)), r4)

mutual

/-- Parse one JSON value (leading whitespace allowed); fuel bounds the
recursion depth and is chosen large enough by `jsonLoads`. -/
def parseValue : Nat → List Char → Except String (JsonValue × List Char)
  | 0, _ => Except.error "Too deeply nested"
  | Nat.succ fuel, cs =>
    match skipWs cs with
    | [] => Except.error "Expecting value"
    | c :: rest =>
      if c = '"' then
        match parseStringBody (rest.length + 1) rest with
        | Except.ok (body, rem) => Except.ok (JsonValue.str (String.mk body), rem)
        | Except.error msg => Except.error msg
      else if c = lbraceChar then
        match skipWs rest with
        | c2 :: r2 => if c2 = rbraceChar then Except.ok (JsonValue.obj [], r2)
            else
              match parseMembers fuel rest with
              | Except.ok (ms, rem) => Except.ok (JsonValue.obj ms, rem)
              | Except.error msg => Except.error msg
        | [] => Except.error "Expecting property name"
      else if c = '[' then
        match skipWs rest with
        | c2 :: r2 => if c2 = ']' then Except.ok (JsonValue.arr [], r2)
            else
              match parseItems fuel rest with
              | Except.ok (items, rem) => Except.ok (JsonValue.arr items, rem)
              | Except.error msg => Except.error msg
        | [] => Except.error "Expecting value"
      else if c = 't' then
        if ['r', 'u', 'e'].isPrefixOf rest then Except.ok (JsonValue.bool true, rest.drop 3)
        else Except.error "Expecting value"
      else if c = 'f' then
        if ['a', 'l', 's', 'e'].isPrefixOf rest then Except.ok (JsonValue.bool false, rest.drop 4)
        else Except.error "Expecting value"
      else if c = 'n' then
        if ['u', 'l', 'l'].isPrefixOf rest then Except.ok (JsonValue.null, rest.drop 3)
        else Except.error "Expecting value"
      else parseNumber (c :: rest)

/-- Parse the elements of a non-empty JSON array (the opening bracket already
consumed). -/
def parseItems : Nat → List Char → Except String (List JsonValue × List Char)
  | 0, _ => Except.error "Too deeply nested"
  | Nat.succ fuel, cs =>
    match parseValue fuel cs with
    | Except.error msg => Except.error msg
    | Except.ok (v, rem) =>
      match skipWs rem with
      | c :: r2 =>
        if c = ',' then
          match parseItems fuel r2 with
          | Except.ok (items, rem2) => Except.ok (v :: items, rem2)
          | Except.error msg => Except.error msg
        else if c = ']' then Except.ok ([v], r2)
        else Except.error "Expecting delimiter"
      | [] => Except.error "Expecting delimiter"

/-- Parse the members of a non-empty JSON object (the opening brace already
consumed). -/
def parseMembers : Nat → List Char → Except String (List (String × JsonValue) × List Char)
  | 0, _ => Except.error "Too deeply nested"
  | Nat.succ fuel, cs =>
    match skipWs cs with
    | c :: rest =>
      if c = '"' then
        match parseStringBody (rest.length + 1) rest with
        | Except.error msg => Except.error msg
        | Except.ok (key, rem) =>
          match skipWs rem with
          | c2 :: r2 =>
            if c2 = ':' then
              match parseValue fuel r2 with
              | Except.error msg => Except.error msg
              | Except.ok (v, rem2) =>
                match skipWs rem2 with
                | c3 :: r3 =>
                  if c3 = ',' then
                    match parseMembers fuel r3 with
                    | Except.ok (ms, rem3) => Except.ok ((String.mk key, v) :: ms, rem3)
                    | Except.error msg => Except.error msg
                  else if c3 = rbraceChar then Except.ok ([(String.mk key, v)], r3)
                  else Except.error "Expecting delimiter"
                | [] => Except.error "Expecting delimiter"
            else Except.error "Expecting colon"
          | [] => Except.error "Expecting colon"
      else Except.error "Expecting property name"
    | [] => Except.error "Expecting property name"

end

/-- Model of Python `json.loads`: parse one value, then require only
whitespace to remain. -/
def jsonLoads (cs : List Char) : Except String JsonValue :=
  match parseValue (2 * cs.length + 2) cs with
  | Except.error msg => Except.error msg
  | Except.ok (v, rem) =>
    if (skipWs rem).isEmpty then Except.ok v else Except.error "Extra data"

/-! ## parse_llm_response (source lines 201-230) -/

/-- The triple-backtick character. -/
def backquote : Char := Char.ofNat 96

/-- The fence marker, three backquotes. -/
def fenceMarker : List Char := [backquote, backquote, backquote]

/-- Python `needle in haystack` on strings: contiguous-substring test. -/
def listContainsSeq (needle : List Char) : List Char → Bool
  | [] => needle.isEmpty
  | c :: cs => needle.isPrefixOf (c :: cs) || listContainsSeq needle cs

/-- Python `text.split("\n")`: split at every newline, keeping empty pieces
(`"".split("\n") == [""]`). -/
def splitNl : List Char → List (List Char)
  | [] => [[]]
  | c :: cs =>
    if c = '\n' then [] :: splitNl cs
    else
      match splitNl cs with
      | [] => [[c]]
      | l :: ls => (c :: l) :: ls

/-- Python `"\n".join(lines)`. -/
def joinNl : List (List Char) → List Char
  | [] => []
  | [l] => l
  | l :: l' :: ls => l ++ '\n' :: joinNl (l' :: ls)

/-- The loop condition `line.strip().startswith("```")`. -/
def isFenceLine (l : List Char) : Bool :=
  fenceMarker.isPrefixOf (pyStrip l)

/-- The fence-scanning loop of `parse_llm_response`: walk the lines with the
`in_block` flag, collect the lines of the first fenced block, stop at the
marker that closes it. -/
def collectBlock (inBlock : Bool) : List (List Char) → List (List Char)
  | [] => []
  | l :: ls =>
    if isFenceLine l then
      if inBlock then [] else collectBlock true ls
    else
      if inBlock then l :: collectBlock true ls
      else collectBlock false ls

/-- The fence-stripping step: only entered when the text contains a marker;
the text is replaced by the stripped joined block lines only when at least
one block line was collected. -/
def strip_fences (cs : List Char) : List Char :=
  if listContainsSeq fenceMarker cs then
    let blockLines := collectBlock false (splitNl cs)
    if blockLines.isEmpty then cs else pyStrip (joinNl blockLines)
  else cs

/-- Python `text.rfind("]")`: index of the last closing bracket. -/
def rfindRBracket (cs : List Char) : Option Nat :=
  match cs.reverse.findIdx? (fun c => c == ']') with
  | some i => some (cs.length - 1 - i)
  | none => none

/-- The bracket-slicing step: when both a first `'['` and a last `']'` exist,
keep `text[start : end + 1]`; otherwise the text is left untouched. -/
def slice_brackets (cs : List Char) : List Char :=
  match cs.findIdx? (fun c => c == '['), rfindRBracket cs with
  | some s, some e => (cs.drop s).take (e + 1 - s)
  | _, _ => cs

/-- Source: `parse_llm_response` on a character list: strip the text, strip
markdown fences, slice to the bracketed span, `json.loads` the rest.  The
returned value is whatever `json.loads` yields — the source performs no
array-of-strings check. -/
def parse_llm_response_chars (cs : List Char) : Except String JsonValue :=
  jsonLoads (slice_brackets (strip_fences (pyStrip cs)))

/-- Source: `parse_llm_response`. -/
def parse_llm_response (response : String) : Except String JsonValue :=
  parse_llm_response_chars response.toList

/-! ## cmd_test (source lines 348-424)

Terminal rendering and file persistence are outside the core; the embedding
of `cmd_test` returns the accumulated `results` list.  The external LLM
transport `run_llm` is an oracle from (system instruction, user prompt) to
raw response text or a raised failure. -/

/-- The external reasoning-agent capability consumed by `cmd_test`:
`run_llm(provider, model, system, user)` with the provider/model
configuration fixed for the whole batch. -/
def AgentOracle : Type := String → String → Except String String

/-- One entry of `cmd_test`'s `results` list.  `actual` is whatever
`parse_llm_response` produced — a JSON value, initialized to the empty
array.  The verdict's six keys are flattened into the Python dict; here they
stay grouped in the `comparison` field. -/
structure ResultRow where
  id : String
  name : String
  difficulty : String
  expected : List String
  actual : JsonValue
  raw_response : String
  comparison : Verdict
  deriving Repr

/-- Python truthiness of `ch.get("correct_answer")`: `None` and `[]` are
falsy. -/
def truthyAnswer : Option (List String) → Bool
  | none => false
  | some l => ¬ l.isEmpty

/-- The answer-population loop at the top of `cmd_test`
(`if not ch.get("correct_answer"): ch["correct_answer"] = verify_challenge(ch)`).
It runs before the evaluation loop and outside any `try`, so the first
resolution failure propagates and aborts the whole command.  Returns each
challenge paired with its populated answer. -/
def populate_answers (truth : TruthOracle) :
    List Challenge → Except String (List (Challenge × List String))
  | [] => Except.ok []
  | ch :: rest =>
    let ansE : Except String (List String) :=
      if truthyAnswer ch.correct_answer then Except.ok (ch.correct_answer.getD [])
      else verify_challenge truth ch
    match ansE with
    | Except.error e => Except.error e
    | Except.ok ans =>
      match populate_answers truth rest with
      | Except.error e => Except.error e
      | Except.ok pairs => Except.ok (({ ch with correct_answer := some ans }, ans) :: pairs)

/-- Iterating `[normalize_datetime(a) for a in actual]` over the value
`json.loads` returned: a list yields its items (a non-string item raises
`AttributeError` inside `normalize_datetime`), a dict yields its keys, a
string yields its characters as one-character strings, and any other value
raises `TypeError`.  The `Except` error is the exception's text. -/
def pyIterStrings : JsonValue → Except String (List String)
  | JsonValue.arr items =>
    items.mapM (fun item =>
      match item with
      | JsonValue.str s => Except.ok s
      | _ => Except.error "AttributeError: no attribute strip")
  | JsonValue.obj members => Except.ok (members.map (fun m => m.1))
  | JsonValue.str s => Except.ok (s.toList.map (fun c => String.mk [c]))
  | _ => Except.error "TypeError: object is not iterable"

/-- `compare_answers(ch["correct_answer"], llm_answer)` applied to the raw
parsed JSON value: it succeeds exactly when Python's iteration over
`llm_answer` yields strings. -/
def compare_json (expected : List String) (answer : JsonValue) :
    Except String Verdict :=
  match pyIterStrings answer with
  | Except.ok actual => Except.ok (compare_answers expected actual)
  | Except.error e => Except.error e

/-- The comparison dict built in `cmd_test`'s `except` branch: a failing
verdict whose `missing` is the full expected sequence. -/
def failVerdict (expected : List String) : Verdict :=
  { correct := false
    expected_count := expected.length
    actual_count := 0
    matching := 0
    missing := expected
    extra := [] }

/-- The body of `cmd_test`'s evaluation loop for one challenge with its
populated answer: call the agent, parse, compare; on the first raised
failure fall into the `except` branch, which records the failing verdict and
stores the exception text in `raw_response`.  Note that `llm_answer` keeps
the parsed value when parsing succeeded but the comparison itself raised. -/
def cmd_test_step (llm : AgentOracle) (pair : Challenge × List String) : ResultRow :=
  let ch := pair.1
  let ans := pair.2
  match llm SYSTEM_PROMPT (build_prompt ch) with
  | Except.error e =>
    { id := ch.id, name := ch.name, difficulty := ch.difficulty
      expected := ans, actual := JsonValue.arr []
      raw_response := "ERROR: " ++ e, comparison := failVerdict ans }
  | Except.ok response =>
    match parse_llm_response response with
    | Except.error e =>
      { id := ch.id, name := ch.name, difficulty := ch.difficulty
        expected := ans, actual := JsonValue.arr []
        raw_response := "ERROR: " ++ e, comparison := failVerdict ans }
    | Except.ok answer =>
      match compare_json ans answer with
      | Except.error e =>
        { id := ch.id, name := ch.name, difficulty := ch.difficulty
          expected := ans, actual := answer
          raw_response := "ERROR: " ++ e, comparison := failVerdict ans }
      | Except.ok verdict =>
        { id := ch.id, name := ch.name, difficulty := ch.difficulty
          expected := ans, actual := answer
          raw_response := response, comparison := verdict }

/-- Source: `cmd_test`, reduced to the `results` list it accumulates: populate
the missing ground-truth answers (fallibly, outside any `try`), then run the
per-challenge evaluation loop (total: every per-iteration failure is caught
in the loop's `except`). -/
def cmd_test (truth : TruthOracle) (llm : AgentOracle) (target : List Challenge) :
    Except String (List ResultRow) :=
  match populate_answers truth target with
  | Except.error e => Except.error e
  | Except.ok pairs => Except.ok (pairs.map (cmd_test_step llm))

/-! ## Comparator lemmas -/

/-- Counting positionally equal pairs of the zipped lists equals counting the
index positions (over the shorter list) whose entries agree. -/
lemma matching_eq_count_range : ∀ (ne na : List String),
    ((ne.zip na).filter (fun p => decide (p.1 = p.2))).length =
    ((List.range (min ne.length na.length)).filter
      (fun i => decide (ne.getD i "" = na.getD i ""))).length := by
  intro ne
  induction ne with
  | nil => intro na; simp
  | cons e es ih =>
    intro na
    cases na with
    | nil => simp
    | cons a as =>
      simp only [List.zip_cons_cons, List.filter_cons, List.length_cons,
        Nat.succ_min_succ, List.range_succ_eq_map, List.getD_cons_zero]
      rw [List.filter_map]
      have hcomp : ((fun i => decide ((e :: es).getD i "" = (a :: as).getD i "")) ∘ Nat.succ)
          = fun i => decide (es.getD i "" = as.getD i "") := by
        funext i; simp [List.getD_cons_succ]
      rw [hcomp]
      by_cases h : e = a <;> simp [h, ih as]

/-- A duplicate-free list of length at least two differs from its reversal. -/
lemma ne_reverse_of_nodup (L : List String) (h2 : 2 ≤ L.length) (hnd : L.Nodup) :
    L ≠ L.reverse := by
  match L, h2 with
  | x :: y :: rest, _ =>
    intro h
    have hh : (x :: y :: rest).head? = (x :: y :: rest).reverse.head? := by rw [← h]
    rw [List.head?_reverse] at hh
    have hg : (x :: y :: rest).getLast? = some ((y :: rest).getLast (by simp)) := by
      rw [List.getLast?_cons_cons]
      exact List.getLast?_eq_getLast _ _
    rw [hg] at hh
    simp only [List.head?_cons, Option.some.injEq] at hh
    have hmem : (y :: rest).getLast (by simp) ∈ y :: rest := List.getLast_mem _
    rw [← hh] at hmem
    simp only [List.nodup_cons] at hnd
    exact hnd.1 hmem

end RRuleGauntlet

namespace RRuleGauntlet

/-! ## Claim theorems: the comparator (C3, C4, C6, C7, C10) -/

/-- C3: `compare_answers` normalizes each element (whitespace trim, trailing
zero-offset rewrite), computes `matching` as the number of index positions
over the shorter sequence with equal entries, `missing` as the normalized
expected entries occurring nowhere in the normalized actual sequence,
`extra` symmetrically; on expected `["A","B","C"]` and actual `["A","C"]` it
yields matching 1, missing `["B"]`, extra `[]`, correct false. -/
theorem c3_compare_answers_algorithm :
    (∀ expected actual : List String,
      (compare_answers expected actual).matching =
        ((List.range (min expected.length actual.length)).filter (fun i =>
          decide ((expected.map normalize_datetime).getD i "" =
                  (actual.map normalize_datetime).getD i ""))).length ∧
      (compare_answers expected actual).missing =
        (expected.map normalize_datetime).filter
          (fun e => decide (e ∉ actual.map normalize_datetime)) ∧
      (compare_answers expected actual).extra =
        (actual.map normalize_datetime).filter
          (fun a => decide (a ∉ expected.map normalize_datetime))) ∧
    normalize_datetime " 2026-01-01T00:00:00Z " = "2026-01-01T00:00:00+00:00" ∧
    compare_answers ["A", "B", "C"] ["A", "C"] =
      { correct := false, expected_count := 3, actual_count := 2, matching := 1,
        missing := ["B"], extra := [] } := by
  refine ⟨fun expected actual => ⟨?_, rfl, rfl⟩, by decide, by decide⟩
  have h := matching_eq_count_range (expected.map normalize_datetime)
    (actual.map normalize_datetime)
  simpa [compare_answers, List.length_map] using h

/-- C4: the comparator's verdict is order-sensitive: for any sequence of
length at least two whose normalized elements are distinct, comparing it
with its reversal yields `correct = false` even though `missing` and `extra`
are both empty; and `correct` is true exactly when the two normalized
sequences are equal element-for-element in order. -/
theorem c4_order_sensitive :
    (∀ S : List String, 2 ≤ S.length → (S.map normalize_datetime).Nodup →
      (compare_answers S S.reverse).correct = false ∧
      (compare_answers S S.reverse).missing = [] ∧
      (compare_answers S S.reverse).extra = []) ∧
    (∀ expected actual : List String,
      (compare_answers expected actual).correct = true ↔
        expected.map normalize_datetime = actual.map normalize_datetime) := by
  constructor
  · intro S h2 hnd
    have hrev : S.reverse.map normalize_datetime = (S.map normalize_datetime).reverse :=
      List.map_reverse ..
    have hlen : 2 ≤ (S.map normalize_datetime).length := by
      rw [List.length_map]; exact h2
    have hne := ne_reverse_of_nodup (S.map normalize_datetime) hlen hnd
    refine ⟨?_, ?_, ?_⟩
    · show decide (S.map normalize_datetime = S.reverse.map normalize_datetime) = false
      rw [hrev]
      exact decide_eq_false hne
    · show (S.map normalize_datetime).filter
        (fun e => decide (e ∉ S.reverse.map normalize_datetime)) = []
      rw [hrev]
      refine List.filter_eq_nil_iff.mpr (fun x hx => ?_)
      simp [List.mem_reverse.mpr hx]
    · show (S.reverse.map normalize_datetime).filter
        (fun a => decide (a ∉ S.map normalize_datetime)) = []
      rw [hrev]
      refine List.filter_eq_nil_iff.mpr (fun x hx => ?_)
      simp [List.mem_reverse.mp hx]
  · intro expected actual
    show decide (expected.map normalize_datetime = actual.map normalize_datetime) = true ↔ _
    exact decide_eq_true_iff

/-- Witness for `c4_order_sensitive` at `S = ["A", "B"]`. -/
theorem c4_order_sensitive_witness :
    2 ≤ (["A", "B"] : List String).length ∧
    ((["A", "B"] : List String).map normalize_datetime).Nodup ∧
    (compare_answers ["A", "B"] (["A", "B"] : List String).reverse).correct = false ∧
    (compare_answers ["A", "B"] (["A", "B"] : List String).reverse).missing = [] ∧
    (compare_answers ["A", "B"] (["A", "B"] : List String).reverse).extra = [] := by
  have h := c4_order_sensitive.1 ["A", "B"] (by decide) (by decide)
  exact ⟨by decide, by decide, h.1, h.2.1, h.2.2⟩

/-- C6 fails as stated: the `extra` list is a filtered copy of `actual`, so
permuting `actual` permutes `extra`.  At expected `["A"]`, the permuted
actuals `["X","Y"]` and `["Y","X"]` give different `extra` lists. -/
theorem c6_counterexample :
    List.Perm ["X", "Y"] ["Y", "X"] ∧
    (compare_answers ["A"] ["Y", "X"]).extra ≠ (compare_answers ["A"] ["X", "Y"]).extra := by
  decide

/-- C6 amended: permuting `actual` never changes `missing`, and changes
`extra` at most by the same permutation (the entries are preserved as a
multiset); only `matching`, `correct` and the order of `extra` may change. -/
theorem c6_diagnostics_perm_invariant :
    ∀ (expected actual actual' : List String), actual.Perm actual' →
      (compare_answers expected actual').missing = (compare_answers expected actual).missing ∧
      (compare_answers expected actual').extra.Perm (compare_answers expected actual).extra := by
  intro expected actual actual' hp
  have hmap : (actual.map normalize_datetime).Perm (actual'.map normalize_datetime) :=
    hp.map normalize_datetime
  constructor
  · show (expected.map normalize_datetime).filter
        (fun e => decide (e ∉ actual'.map normalize_datetime)) =
      (expected.map normalize_datetime).filter
        (fun e => decide (e ∉ actual.map normalize_datetime))
    refine List.filter_congr (fun x _ => ?_)
    exact decide_eq_decide.mpr (not_congr hmap.mem_iff.symm)
  · show ((actual'.map normalize_datetime).filter
        (fun a => decide (a ∉ expected.map normalize_datetime))).Perm
      ((actual.map normalize_datetime).filter
        (fun a => decide (a ∉ expected.map normalize_datetime)))
    exact hmap.symm.filter _

/-- Witness for `c6_diagnostics_perm_invariant` at expected `["A"]`, actual
`["X","Y"]` and its permutation `["Y","X"]`. -/
theorem c6_diagnostics_perm_invariant_witness :
    List.Perm (["X", "Y"] : List String) ["Y", "X"] ∧
    ((compare_answers ["A"] ["Y", "X"]).missing = (compare_answers ["A"] ["X", "Y"]).missing ∧
      (compare_answers ["A"] ["Y", "X"]).extra.Perm (compare_answers ["A"] ["X", "Y"]).extra) :=
  ⟨by decide, c6_diagnostics_perm_invariant ["A"] ["X", "Y"] ["Y", "X"] (by decide)⟩

/-- C7: every verdict satisfies `matching ≤ min (length expected)
(length actual)`, and `correct = true` implies `missing` and `extra` are
empty and the lengths are equal. -/
theorem c7_verdict_invariants :
    ∀ expected actual : List String,
      (compare_answers expected actual).matching ≤ min expected.length actual.length ∧
      ((compare_answers expected actual).correct = true →
        (compare_answers expected actual).missing = [] ∧
        (compare_answers expected actual).extra = [] ∧
        expected.length = actual.length) := by
  intro expected actual
  constructor
  · show (((expected.map normalize_datetime).zip (actual.map normalize_datetime)).filter
      (fun p => decide (p.1 = p.2))).length ≤ _
    calc (((expected.map normalize_datetime).zip (actual.map normalize_datetime)).filter
          (fun p => decide (p.1 = p.2))).length
        ≤ ((expected.map normalize_datetime).zip (actual.map normalize_datetime)).length :=
          List.length_filter_le ..
      _ = min expected.length actual.length := by
          rw [List.length_zip, List.length_map, List.length_map]
  · intro hc
    have heq : expected.map normalize_datetime = actual.map normalize_datetime :=
      of_decide_eq_true hc
    refine ⟨?_, ?_, ?_⟩
    · show (expected.map normalize_datetime).filter
        (fun e => decide (e ∉ actual.map normalize_datetime)) = []
      rw [← heq]
      exact List.filter_eq_nil_iff.mpr (fun x hx => by simp [hx])
    · show (actual.map normalize_datetime).filter
        (fun a => decide (a ∉ expected.map normalize_datetime)) = []
      rw [heq]
      exact List.filter_eq_nil_iff.mpr (fun x hx => by simp [hx])
    · have := congrArg List.length heq
      simpa [List.length_map] using this

/-- Witness for `c7_verdict_invariants` at expected = actual = `["A"]`,
where `correct` is true. -/
theorem c7_verdict_invariants_witness :
    (compare_answers ["A"] ["A"]).matching ≤
      min (["A"] : List String).length (["A"] : List String).length ∧
    ((compare_answers ["A"] ["A"]).correct = true ∧
      ((compare_answers ["A"] ["A"]).missing = [] ∧
        (compare_answers ["A"] ["A"]).extra = [] ∧
        (["A"] : List String).length = (["A"] : List String).length)) :=
  ⟨(c7_verdict_invariants ["A"] ["A"]).1,
    by decide, (c7_verdict_invariants ["A"] ["A"]).2 (by decide)⟩

/-- C10: `compare_answers` is total on every pair of string lists — it always
returns a verdict carrying all six fields, whose count fields are the input
lengths — and `normalize_datetime` is total on every string. -/
theorem c10_compare_answers_total :
    (∀ expected actual : List String, ∃ v : Verdict,
      compare_answers expected actual = v ∧
      v.expected_count = expected.length ∧ v.actual_count = actual.length) ∧
    (∀ s : String, ∃ t : String, normalize_datetime s = t) := by
  refine ⟨fun expected actual => ⟨compare_answers expected actual, rfl, ?_, ?_⟩,
    fun s => ⟨normalize_datetime s, rfl⟩⟩
  · show (expected.map normalize_datetime).length = expected.length
    exact List.length_map ..
  · show (actual.map normalize_datetime).length = actual.length
    exact List.length_map ..

/-! ## Concrete challenges for witnesses and scenarios -/

/-- A precomputed ("hardcoded") challenge, as in end-to-end scenario A. -/
def demoHardcoded : Challenge :=
  { id := "g1", name := "March weekly", difficulty := "Easy"
    question := "List the UTC start times.", rrule := "FREQ=WEEKLY;COUNT=1"
    dtstart := "2026-03-01T07:00:00", timezone := "UTC", duration_minutes := 60
    verification_mode := some "hardcoded"
    correct_answer := some ["2026-03-01T07:00:00+00:00"] }

/-- An engine-resolved challenge whose resolution the demo oracle rejects. -/
def demoBroken : Challenge :=
  { id := "g2", name := "Broken rule", difficulty := "Hard"
    question := "List the UTC start times.", rrule := "FREQ=BOGUS"
    dtstart := "2026-03-01T07:00:00", timezone := "UTC", duration_minutes := 60 }

/-- An engine-resolved challenge the demo oracle answers. -/
def demoEngine : Challenge :=
  { id := "g3", name := "April monthly", difficulty := "Medium"
    question := "List the UTC start times.", rrule := "FREQ=MONTHLY;COUNT=1"
    dtstart := "2026-04-01T07:00:00", timezone := "UTC", duration_minutes := 60 }

/-- A Truth Engine stand-in that raises exactly on `demoBroken`. -/
def demoTruth : TruthOracle := fun ch =>
  if ch.id = "g2" then Except.error "boom"
  else Except.ok ["2026-04-01T07:00:00+00:00"]

/-! ## Resolver lemmas -/

/-- The `verify_all` fold over fresh ids appends one entry per challenge. -/
lemma verify_all_fold (truth : TruthOracle) :
    ∀ (chs : List Challenge) (acc : List (String × Except String (List String))),
      (chs.map Challenge.id).Nodup →
      (∀ ch ∈ chs, acc.any (fun p => p.1 == ch.id) = false) →
      chs.foldl (fun results ch => dictInsert results ch.id (verify_result truth ch)) acc
        = acc ++ chs.map (fun ch => (ch.id, verify_result truth ch)) := by
  intro chs
  induction chs with
  | nil => intro acc _ _; simp
  | cons ch rest ih =>
    intro acc hnd hacc
    have hmap : (List.map Challenge.id (ch :: rest)).Nodup := hnd
    rw [List.map_cons, List.nodup_cons] at hmap
    have hins : dictInsert acc ch.id (verify_result truth ch)
        = acc ++ [(ch.id, verify_result truth ch)] := by
      unfold dictInsert
      rw [hacc ch (by simp)]
      simp
    have hacc' : ∀ ch' ∈ rest,
        (acc ++ [(ch.id, verify_result truth ch)]).any (fun p => p.1 == ch'.id) = false := by
      intro ch' hch'
      rw [List.any_append, hacc ch' (by simp [hch'])]
      have hne : ch.id ≠ ch'.id := by
        intro hcontra
        exact hmap.1 (hcontra ▸ List.mem_map_of_mem Challenge.id hch')
      simp [hne]
    rw [List.foldl_cons, hins, ih _ hmap.2 hacc', List.map_cons, List.append_assoc]
    rfl

end RRuleGauntlet

namespace RRuleGauntlet

/-! ## Claim theorems: ground-truth resolution (C2, C8) -/

/-- C2: over a batch with unique identifiers, `verify_all` records one entry
per challenge in order — a resolution failure is caught, stored for that
challenge tagged with the underlying cause, and never aborts the remaining
challenges; concretely, a batch of three challenges whose second resolution
raises yields exactly three entries, the second a tagged failure, the first
and third resolved normally. -/
theorem c2_verify_all_isolates_failures :
    (∀ (truth : TruthOracle) (challenges : List Challenge),
      (challenges.map Challenge.id).Nodup →
      verify_all truth challenges
        = challenges.map (fun ch => (ch.id, verify_result truth ch)) ∧
      (verify_all truth challenges).length = challenges.length ∧
      ∀ ch ∈ challenges, ∀ e, verify_challenge truth ch = Except.error e →
        (ch.id, Except.error ("ERROR: " ++ e)) ∈ verify_all truth challenges) ∧
    verify_all demoTruth [demoHardcoded, demoBroken, demoEngine]
      = [("g1", Except.ok ["2026-03-01T07:00:00+00:00"]),
         ("g2", Except.error "ERROR: boom"),
         ("g3", Except.ok ["2026-04-01T07:00:00+00:00"])] := by
  constructor
  · intro truth challenges hnd
    have hfold := verify_all_fold truth challenges [] hnd (by simp)
    have hmain : verify_all truth challenges
        = challenges.map (fun ch => (ch.id, verify_result truth ch)) := by
      unfold verify_all
      simpa using hfold
    refine ⟨hmain, by rw [hmain, List.length_map], ?_⟩
    intro ch hch e herr
    rw [hmain]
    have : (ch.id, verify_result truth ch)
        ∈ challenges.map (fun ch => (ch.id, verify_result truth ch)) :=
      List.mem_map_of_mem _ hch
    simpa [verify_result, herr] using this
  · rfl

/-- Witness for `c2_verify_all_isolates_failures` on the three-challenge demo
batch: ids are unique, the batch yields three entries, and the failing
second challenge's tagged entry is present. -/
theorem c2_verify_all_isolates_failures_witness :
    (([demoHardcoded, demoBroken, demoEngine] : List Challenge).map Challenge.id).Nodup ∧
    (verify_all demoTruth [demoHardcoded, demoBroken, demoEngine]).length
      = ([demoHardcoded, demoBroken, demoEngine] : List Challenge).length ∧
    ("g2", Except.error "ERROR: boom")
      ∈ verify_all demoTruth [demoHardcoded, demoBroken, demoEngine] := by
  have hnd : (([demoHardcoded, demoBroken, demoEngine] : List Challenge).map Challenge.id).Nodup := by
    decide
  have h := (c2_verify_all_isolates_failures.1 demoTruth
    [demoHardcoded, demoBroken, demoEngine] hnd)
  exact ⟨hnd, h.2.1, h.2.2 demoBroken (by simp) "boom" rfl⟩

/-- C8: a challenge in "hardcoded" resolution mode carrying a precomputed
answer resolves to exactly that stored answer, and the result does not
depend on the Truth Engine oracle at all (no external call). -/
theorem c8_hardcoded_resolution :
    ∀ (truth truthAlt : TruthOracle) (ch : Challenge) (ans : List String),
      ch.verification_mode = some "hardcoded" →
      ch.correct_answer = some ans →
      verify_challenge truth ch = Except.ok ans ∧
      verify_challenge truth ch = verify_challenge truthAlt ch := by
  intro truth truthAlt ch ans hm ha
  constructor <;> simp [verify_challenge, hm, ha]

/-- Witness for `c8_hardcoded_resolution`: scenario A's precomputed challenge
resolves to `["2026-03-01T07:00:00+00:00"]` under two different (even
failing) oracles. -/
theorem c8_hardcoded_resolution_witness :
    demoHardcoded.verification_mode = some "hardcoded" ∧
    demoHardcoded.correct_answer = some ["2026-03-01T07:00:00+00:00"] ∧
    verify_challenge (fun _ => Except.ok []) demoHardcoded
      = Except.ok ["2026-03-01T07:00:00+00:00"] ∧
    verify_challenge (fun _ => Except.ok []) demoHardcoded
      = verify_challenge (fun _ => Except.error "down") demoHardcoded := by
  have h := c8_hardcoded_resolution (fun _ => Except.ok []) (fun _ => Except.error "down")
    demoHardcoded ["2026-03-01T07:00:00+00:00"] rfl rfl
  exact ⟨rfl, rfl, h.1, h.2⟩

/-! ## cmd_test lemmas -/

/-- The answer-population loop yields one pair per challenge when it
succeeds. -/
lemma populate_answers_length (truth : TruthOracle) :
    ∀ (target : List Challenge) (pairs : List (Challenge × List String)),
      populate_answers truth target = Except.ok pairs →
      pairs.length = target.length := by
  intro target
  induction target with
  | nil =>
    intro pairs h
    simp only [populate_answers] at h
    cases h
    rfl
  | cons ch rest ih =>
    intro pairs h
    simp only [populate_answers] at h
    cases hE : (if truthyAnswer ch.correct_answer then Except.ok (ch.correct_answer.getD [])
      else verify_challenge truth ch) with
    | error e => rw [hE] at h; cases h
    | ok ans =>
      rw [hE] at h
      cases hR : populate_answers truth rest with
      | error e => rw [hR] at h; cases h
      | ok pairsRest =>
        rw [hR] at h
        cases h
        simp [ih pairsRest hR]

end RRuleGauntlet

namespace RRuleGauntlet

/-! ## Claim theorems: the cmd_test batch (C1) -/

/-- C1 fails as stated: in `cmd_test` the ground-truth resolution of the
batch runs in a loop before — and outside — the per-challenge `try`, so a
resolution error propagates and aborts the whole batch.  Concretely, a
two-challenge batch whose first challenge must be resolved by a failing
Truth Engine produces an error and zero result rows instead of two rows. -/
theorem c1_counterexample :
    cmd_test (fun _ => Except.error "boom") (fun _ _ => Except.ok "[]")
        [demoBroken, demoHardcoded] = Except.error "boom" ∧
    ([demoBroken, demoHardcoded] : List Challenge).length = 2 :=
  ⟨rfl, rfl⟩

/-- C1 amended: once the ground-truth population step has succeeded, the
evaluation loop is total — a batch of N challenges produces exactly N result
rows, and every agent-invocation or response-parsing failure is caught and
recorded as a failing row whose `missing` is the full expected sequence,
whose `actual` and `matching` are empty, and whose raw-response field
carries the failure cause; but a ground-truth resolution error during the
population step is not caught and aborts the batch. -/
theorem c1_batch_rows :
    (∀ (truth : TruthOracle) (llm : AgentOracle) (target : List Challenge)
        (rows : List ResultRow),
      cmd_test truth llm target = Except.ok rows → rows.length = target.length) ∧
    (∀ (truth : TruthOracle) (llm : AgentOracle) (target : List Challenge)
        (pairs : List (Challenge × List String)),
      populate_answers truth target = Except.ok pairs →
      cmd_test truth llm target = Except.ok (pairs.map (cmd_test_step llm))) ∧
    (∀ (llm : AgentOracle) (ch : Challenge) (ans : List String) (e : String),
      (llm SYSTEM_PROMPT (build_prompt ch) = Except.error e ∨
        (∃ response, llm SYSTEM_PROMPT (build_prompt ch) = Except.ok response ∧
          parse_llm_response response = Except.error e)) →
      cmd_test_step llm (ch, ans) =
        { id := ch.id, name := ch.name, difficulty := ch.difficulty
          expected := ans, actual := JsonValue.arr []
          raw_response := "ERROR: " ++ e, comparison := failVerdict ans }) := by
  refine ⟨?_, ?_, ?_⟩
  · intro truth llm target rows h
    unfold cmd_test at h
    cases hP : populate_answers truth target with
    | error e => rw [hP] at h; cases h
    | ok pairs =>
      rw [hP] at h
      cases h
      rw [List.length_map]
      exact populate_answers_length truth target pairs hP
  · intro truth llm target pairs h
    unfold cmd_test
    rw [h]
  · intro llm ch ans e hfail
    rcases hfail with hllm | ⟨response, hllm, hparse⟩
    · simp [cmd_test_step, hllm]
    · simp [cmd_test_step, hllm, hparse]

/-- Witness for `c1_batch_rows` on a one-challenge batch whose agent call
fails: the population step succeeds (the answer is precomputed), the batch
yields exactly one row, and that row is the failing row. -/
theorem c1_batch_rows_witness :
    cmd_test (fun _ => Except.error "down") (fun _ _ => Except.error "boom") [demoHardcoded]
      = Except.ok ([({ demoHardcoded with correct_answer := some ["2026-03-01T07:00:00+00:00"] },
          ["2026-03-01T07:00:00+00:00"])].map
            (cmd_test_step (fun _ _ => Except.error "boom"))) ∧
    ([({ demoHardcoded with correct_answer := some ["2026-03-01T07:00:00+00:00"] },
        (["2026-03-01T07:00:00+00:00"] : List String))].map
          (cmd_test_step (fun _ _ => Except.error "boom"))).length
      = ([demoHardcoded] : List Challenge).length ∧
    cmd_test_step (fun _ _ => Except.error "boom")
        (demoHardcoded, ["2026-03-01T07:00:00+00:00"])
      = { id := demoHardcoded.id, name := demoHardcoded.name
          difficulty := demoHardcoded.difficulty
          expected := ["2026-03-01T07:00:00+00:00"], actual := JsonValue.arr []
          raw_response := "ERROR: boom"
          comparison := failVerdict ["2026-03-01T07:00:00+00:00"] } := by
  have hpop : populate_answers (fun _ => Except.error "down") [demoHardcoded]
      = Except.ok [({ demoHardcoded with correct_answer := some ["2026-03-01T07:00:00+00:00"] },
          ["2026-03-01T07:00:00+00:00"])] := rfl
  have h2 := c1_batch_rows.2.1 (fun _ => Except.error "down")
    (fun _ _ => Except.error "boom") [demoHardcoded] _ hpop
  have h1 := c1_batch_rows.1 (fun _ => Except.error "down")
    (fun _ _ => Except.error "boom") [demoHardcoded] _ h2
  have h3 := c1_batch_rows.2.2 (fun _ _ => Except.error "boom") demoHardcoded
    ["2026-03-01T07:00:00+00:00"] "boom" (Or.inl rfl)
  exact ⟨h2, h1, h3⟩

/-! ## Response-parser lemmas -/

/-- Classifier used to state claims about the parsed value's shape: is it a
JSON array whose items are all strings? -/
def isStringArray : JsonValue → Bool
  | JsonValue.arr items => items.all (fun item =>
      match item with
      | JsonValue.str _ => true
      | _ => false)
  | _ => false

/-- A newline-free list of characters splits into the single line it is. -/
lemma splitNl_no_nl : ∀ cs : List Char, '\n' ∉ cs → splitNl cs = [cs] := by
  intro cs
  induction cs with
  | nil => intro _; rfl
  | cons c rest ih =>
    intro h
    have hc : ¬ c = '\n' := fun hx => h (hx ▸ List.mem_cons_self c rest)
    have hrest : '\n' ∉ rest := fun hx => h (List.mem_cons_of_mem c hx)
    simp only [splitNl, if_neg hc, ih hrest]

/-- Splitting distributes over the first newline after a newline-free
line. -/
lemma splitNl_append_nl : ∀ (l rest : List Char), '\n' ∉ l →
    splitNl (l ++ '\n' :: rest) = l :: splitNl rest := by
  intro l
  induction l with
  | nil => intro rest _; simp [splitNl]
  | cons c ltail ih =>
    intro rest h
    have hc : ¬ c = '\n' := fun hx => h (hx ▸ List.mem_cons_self c ltail)
    have htail : '\n' ∉ ltail := fun hx => h (List.mem_cons_of_mem c hx)
    have hih := ih rest htail
    simp only [List.cons_append, splitNl, if_neg hc, List.append_eq, hih]

/-- `splitNl` inverts `joinNl` on a nonempty list of newline-free lines. -/
lemma splitNl_joinNl : ∀ ls : List (List Char), ls ≠ [] →
    (∀ l ∈ ls, '\n' ∉ l) → splitNl (joinNl ls) = ls := by
  intro ls
  induction ls with
  | nil => intro h _; exact absurd rfl h
  | cons l rest ih =>
    intro _ hfree
    cases rest with
    | nil => exact splitNl_no_nl l (hfree l (by simp))
    | cons l' rest' =>
      show splitNl (l ++ '\n' :: joinNl (l' :: rest')) = _
      rw [splitNl_append_nl l _ (hfree l (by simp)),
        ih (by simp) (fun x hx => hfree x (List.mem_cons_of_mem l hx))]

/-- Inside a block, the scan collects exactly the lines up to the closing
marker. -/
lemma collectBlock_in : ∀ (body : List (List Char)) (cl : List Char)
    (post : List (List Char)), (∀ l ∈ body, isFenceLine l = false) →
    isFenceLine cl = true →
    collectBlock true (body ++ cl :: post) = body := by
  intro body
  induction body with
  | nil =>
    intro cl post _ hcl
    simp [collectBlock, hcl]
  | cons l rest ih =>
    intro cl post hfree hcl
    have hl : isFenceLine l = false := hfree l (by simp)
    have hih := ih cl post (fun x hx => hfree x (List.mem_cons_of_mem l hx)) hcl
    simp [collectBlock, hl, hih]

/-- A non-closed opening marker line switches the scan into the block. -/
lemma collectBlock_open (fl : List Char) (ls : List (List Char))
    (hfl : isFenceLine fl = true) :
    collectBlock false (fl :: ls) = collectBlock true ls := by
  simp [collectBlock, hfl]

/-- Before the first marker, the scan skips every non-marker line. -/
lemma collectBlock_skip : ∀ (pre rest : List (List Char)),
    (∀ l ∈ pre, isFenceLine l = false) →
    collectBlock false (pre ++ rest) = collectBlock false rest := by
  intro pre
  induction pre with
  | nil => intro rest _; rfl
  | cons l ptail ih =>
    intro rest hfree
    have hl : isFenceLine l = false := hfree l (by simp)
    have hih := ih rest (fun x hx => hfree x (List.mem_cons_of_mem l hx))
    simp [collectBlock, hl, hih]

end RRuleGauntlet

namespace RRuleGauntlet

/-! ## Claim theorems: the response parser (C5, C9) -/

/-- C5 fails as stated: `parse_llm_response` performs no array-of-strings
validation.  The input `"{}"` has no array brackets at all, yet the parse
does not fail — it silently returns the empty JSON object, a non-array
value. -/
theorem c5_counterexample :
    "\x7b\x7d".toList.findIdx? (fun c => c == '[') = none ∧
    "\x7b\x7d".toList.findIdx? (fun c => c == ']') = none ∧
    parse_llm_response "\x7b\x7d" = Except.ok (JsonValue.obj []) ∧
    isStringArray (JsonValue.obj []) = false :=
  ⟨rfl, rfl, rfl, rfl⟩

/-- C5 amended: when the text lacks a first `'['` or a last `']'`, the
slicing step is a no-op, and the subsequent parse fails only if the
remaining text is invalid structured data (so a bracket-free text that is
valid JSON is silently returned, array of strings or not); an invalid span
does propagate a parse failure, e.g. on the bracket-free input `"hello"`. -/
theorem c5_no_validation :
    (∀ cs : List Char,
      (cs.findIdx? (fun c => c == '[') = none ∨ rfindRBracket cs = none) →
      slice_brackets cs = cs) ∧
    (∀ response : String,
      parse_llm_response response =
        jsonLoads (slice_brackets (strip_fences (pyStrip response.toList)))) ∧
    parse_llm_response "hello" = Except.error "Expecting value" := by
  refine ⟨?_, fun response => rfl, rfl⟩
  intro cs h
  rcases h with h | h
  · unfold slice_brackets
    rw [h]
  · unfold slice_brackets
    rw [h]
    cases cs.findIdx? (fun c => c == '[') <;> rfl

/-- Witness for `c5_no_validation` on the bracket-free input `"hello"`. -/
theorem c5_no_validation_witness :
    ("hello".toList.findIdx? (fun c => c == '[') = none ∨
      rfindRBracket "hello".toList = none) ∧
    slice_brackets "hello".toList = "hello".toList :=
  ⟨Or.inl rfl, c5_no_validation.1 "hello".toList (Or.inl rfl)⟩

/-- C9: when the response contains a fenced block, the parser keeps only the
content of the first block — the lines between the first marker line and
the next marker line — discarding everything before, after, and beyond the
closing marker; end-to-end, scenario B's fenced response parses to
`["2026-03-01T07:00:00Z"]`, which after normalization compares equal to the
expected `["2026-03-01T07:00:00+00:00"]`. -/
theorem c9_first_fence_block :
    (∀ (pre body post : List (List Char)) (fl cl : List Char),
      (∀ l ∈ pre, isFenceLine l = false) →
      isFenceLine fl = true →
      (∀ l ∈ body, isFenceLine l = false) →
      body ≠ [] →
      isFenceLine cl = true →
      (∀ l ∈ pre ++ fl :: (body ++ cl :: post), '\n' ∉ l) →
      pyStrip (joinNl (pre ++ fl :: (body ++ cl :: post)))
        = joinNl (pre ++ fl :: (body ++ cl :: post)) →
      listContainsSeq fenceMarker (joinNl (pre ++ fl :: (body ++ cl :: post))) = true →
      parse_llm_response_chars (joinNl (pre ++ fl :: (body ++ cl :: post)))
        = jsonLoads (slice_brackets (pyStrip (joinNl body)))) ∧
    parse_llm_response "Here you go:\n```json\n[\"2026-03-01T07:00:00Z\"]\n```\nHope that helps!"
      = Except.ok (JsonValue.arr [JsonValue.str "2026-03-01T07:00:00Z"]) ∧
    (compare_answers ["2026-03-01T07:00:00+00:00"] ["2026-03-01T07:00:00Z"]).correct
      = true := by
  refine ⟨?_, rfl, by decide⟩
  intro pre body post fl cl hpre hfl hbody hne hcl hnl hstrip hmarker
  have hblock : collectBlock false
      (splitNl (joinNl (pre ++ fl :: (body ++ cl :: post)))) = body := by
    rw [splitNl_joinNl _ (by simp) hnl, collectBlock_skip pre _ hpre,
      collectBlock_open fl _ hfl, collectBlock_in body cl post hbody hcl]
  cases body with
  | nil => exact absurd rfl hne
  | cons b bs =>
    unfold parse_llm_response_chars
    rw [hstrip]
    unfold strip_fences
    rw [hmarker, if_pos rfl, hblock]
    rfl

/-- Witness for `c9_first_fence_block` on the lines of scenario B. -/
theorem c9_first_fence_block_witness :
    isFenceLine "```json".toList = true ∧
    parse_llm_response_chars (joinNl (["Here you go:".toList] ++ "```json".toList ::
        (["[\"2026-03-01T07:00:00Z\"]".toList] ++ "```".toList :: ["Hope that helps!".toList])))
      = jsonLoads (slice_brackets (pyStrip (joinNl ["[\"2026-03-01T07:00:00Z\"]".toList]))) := by
  refine ⟨by decide, ?_⟩
  exact c9_first_fence_block.1 ["Here you go:".toList] ["[\"2026-03-01T07:00:00Z\"]".toList]
    ["Hope that helps!".toList] "```json".toList "```".toList
    (by decide) (by decide) (by decide) (by decide) (by decide) (by decide) (by decide) (by decide)

end RRuleGauntlet
